import Mathlib

/-!
Verification of the recursive-safe dynamic function compiler of
`dataclass_wizard/v1/decorators.py` (`_wrapper_logic`,
`setup_recursive_safe_function`).

The embedding is a shallow one.  The decorator module mutates three kinds of
objects through shared references: the `recursion_guard` dictionary (shared by
reference across every nested compilation of one top-level compile), the
`FunctionBuilder` objects (the parent's builder is mutated by the final merge),
and the `extras` context dictionary (shallow-copied, never mutated in place).
To state sharing and freshness honestly, mutable objects live in a small heap
(`DW.Store`): guards and builders are addressed by `Ref` (a natural), and an
`Extras` record holds references, exactly as the Python dictionary holds object
references.  The decorated per-field compiler (`func`) is an arbitrary action
on this heap that can also raise an exception (`PyResult.exn`), mirroring a
propagating Python exception together with the heap state at raise time.

`TypeInfo`, `Extras` and `FunctionBuilder` are imported by the source file but
their definitions (`v1/models.py`, `utils/function_builder.py`) are not part of
the sources; they are modelled from the spec where noted.
-/

namespace DW

/-- Reference into the heap (`Store`): the identity of a mutable Python object. -/
abbrev Ref := Nat

/-- Opaque identity of a class-context argument (`_cls`).  A Python class
object is always truthy; the Python value `None` is modelled by `Option.none`
around this type. -/
abbrev ClsCtx := Nat

/-- Cache key of the recursion guard: `tp.origin` (a concrete class or generic
alias, identified by a natural) in the non-generic variant, or the tuple
`tp.args` of type-argument identities in the generic variant.  Both kinds live
in the one shared guard dictionary and never collide with each other. -/
inductive Key where
  | clsKey (id : Nat)
  | argsKey (ids : List Nat)
deriving DecidableEq, Repr

/-- Modelled from the spec: the Type Descriptor (`TypeInfo` of `v1/models.py`,
not among the sources).  The wrapper reads `tp.origin`, `tp.args`, `tp.name`,
`tp.field_i` and calls `tp.v()` (the value expression); it never mutates a
descriptor. -/
structure TypeInfo where
  origin : Nat
  args : List Nat
  name : String
  field_i : Nat
  val_expr : String
deriving DecidableEq, Repr

/-- The recursion-guard dictionary: insertion-ordered mapping from cache key to
reserved procedure name. -/
abbrev Guard := List (Key × String)

/-- Python `recursion_guard.get(cls)`: first binding of the key, if any. -/
def guardGet (g : Guard) (k : Key) : Option String :=
  (g.find? (fun p => p.1 == k)).map (fun p => p.2)

/-- Python `recursion_guard[cls] = name`: update the existing binding in place,
or append a new one. -/
def guardSet (g : Guard) (k : Key) (v : String) : Guard :=
  if (g.find? (fun p => p.1 == k)).isSome then
    g.map (fun p => if p.1 == k then (k, v) else p)
  else
    g ++ [(k, v)]

/-- Keys bound in a guard, in insertion order. -/
def guardKeys (g : Guard) : List Key := g.map Prod.fst

/-- Modelled from the spec: one sealed procedure definition held by a
`FunctionBuilder` (parameter names, free-variable bindings, statement list).
The `MISSING` default sentinel for the trailing parameter is not modelled; no
claim concerns it. -/
structure FuncDef where
  params : List String
  frees : List (String × Key)
  stmts : List String
deriving DecidableEq, Repr

/-- Modelled from the spec: the procedure definition currently open inside a
`with fn_gen.function(...)` scope. -/
structure OpenFn where
  fname : String
  params : List String
  frees : List (String × Key)
  stmts : List String
deriving DecidableEq, Repr

/-- Modelled from the spec: the Procedure Builder (`FunctionBuilder` of
`utils/function_builder.py`, not among the sources).  It accumulates named
definitions in insertion order and may have one open definition. -/
structure FunctionBuilder where
  functions : List (String × FuncDef)
  current : Option OpenFn
deriving DecidableEq, Repr

/-- A freshly constructed `FunctionBuilder()`. -/
def FunctionBuilder.empty : FunctionBuilder := ⟨[], none⟩

/-- Modelled from the spec: entering `with fn_gen.function(name, params, MISSING,
locals)` opens a new named definition. -/
def FunctionBuilder.beginFn (b : FunctionBuilder) (name : String)
    (params : List String) (frees : List (String × Key)) : FunctionBuilder :=
  { b with current := some ⟨name, params, frees, []⟩ }

/-- Modelled from the spec: leaving the `with fn_gen.function(...)` scope seals
the open definition into the builder; the spec guarantees sealing happens even
when the body raises. -/
def FunctionBuilder.sealFn (b : FunctionBuilder) : FunctionBuilder :=
  match b.current with
  | none => b
  | some o => { functions := b.functions ++ [(o.fname, ⟨o.params, o.frees, o.stmts⟩)],
                current := none }

/-- Modelled from the spec: `main_fn_gen |= new_fn_gen` absorbs the other
builder's definitions, preserving insertion order and never overwriting (name
lookups take the first, earlier definition). -/
def FunctionBuilder.merge (a b : FunctionBuilder) : FunctionBuilder :=
  { functions := a.functions ++ b.functions, current := a.current }

/-- Modelled from the spec: the Build Context (`Extras` of `v1/models.py`, not
among the sources).  The wrapper reads `extras['recursion_guard']`,
`extras['cls_name']`, `extras['fn_gen']`, and replaces `'locals'` and
`'fn_gen'` in a shallow copy.  Guard and builder entries are references into
the heap, as the Python dictionary holds object references. -/
structure Extras where
  recursion_guard : Ref
  cls_name : String
  fn_gen : Ref
  locals : List (String × Key)
deriving DecidableEq, Repr

/-- The heap of mutable objects threaded through a compilation: recursion-guard
dictionaries and `FunctionBuilder` objects, addressed by `Ref`.  The `log`
field is client-side instrumentation: the wrapper never reads or writes it;
example per-field compilers append to it to record their own invocations. -/
structure Store where
  guards : List Guard
  builders : List FunctionBuilder
  log : List Key
deriving DecidableEq, Repr

def Store.readGuard (st : Store) (r : Ref) : Guard := st.guards.getD r []

def Store.writeGuard (st : Store) (r : Ref) (g : Guard) : Store :=
  { st with guards := st.guards.set r g }

def Store.readBuilder (st : Store) (r : Ref) : FunctionBuilder :=
  st.builders.getD r FunctionBuilder.empty

/-- Allocate a fresh `FunctionBuilder` object, returning its reference. -/
def Store.allocBuilder (st : Store) (b : FunctionBuilder) : Ref × Store :=
  (st.builders.length, { st with builders := st.builders ++ [b] })

/-- Mutate the builder object at a reference in place. -/
def Store.modifyBuilder (st : Store) (r : Ref) (f : FunctionBuilder → FunctionBuilder) :
    Store :=
  { st with builders := st.builders.set r (f (st.readBuilder r)) }

/-- Result of running a piece of Python code against the heap: normal return
with a value, or a propagating exception carrying the heap as mutated up to
the raise. -/
inductive PyResult (α : Type) where
  | ok (st : Store) (v : α)
  | exn (st : Store)
deriving Repr

instance {α : Type} [DecidableEq α] : DecidableEq (PyResult α) := fun a b => by
  cases a <;> cases b
  case ok.ok s v s' v' =>
    exact
      if h1 : s = s' then
        if h2 : v = v' then .isTrue (by rw [h1, h2])
        else .isFalse (by intro h; cases h; exact h2 rfl)
      else .isFalse (by intro h; cases h; exact h1 rfl)
  case exn.exn s s' =>
    exact if h1 : s = s' then .isTrue (by rw [h1])
          else .isFalse (by intro h; cases h; exact h1 rfl)
  case ok.exn s v s' => exact .isFalse (by intro h; cases h)
  case exn.ok s s' v' => exact .isFalse (by intro h; cases h)

/-- The decorated per-field compiler, as the wrapper sees it: its `__name__`,
its `__code__.co_argcount`, and its behavior.  `run none tp ex` models the
two-argument call `func(tp, extras)`; `run (some c) tp ex` models the
three-argument call `func(_cls, tp, extras)`.  The return value of the Python
function is `None` and is ignored, hence `PyResult Unit`. -/
structure DecoratedFunc where
  name : String
  argcount : Nat
  run : Option ClsCtx → TypeInfo → Extras → Store → PyResult Unit

/-- Line 52: `cls = tp.args if is_generic else tp.origin`. -/
def cacheKey (isGeneric : Bool) (tp : TypeInfo) : Key :=
  if isGeneric then Key.argsKey tp.args else Key.clsKey tp.origin

/-- Python `str.split('_')` on a character list (structural, so that the kernel
can evaluate it). -/
def splitOnUnderscore : List Char → List (List Char)
  | [] => [[]]
  | c :: cs =>
    let r := splitOnUnderscore cs
    if c == '_' then [] :: r
    else
      match r with
      | [] => [[c]]
      | p :: ps => (c :: p) :: ps

/-- Rejoin split parts with an underscore (the effect of Python
`'_'.join(parts)`). -/
def joinUnderscore : List (List Char) → List Char
  | [] => []
  | [p] => p
  | p :: ps => p ++ '_' :: joinUnderscore ps

/-- Line 57: `tp_name = func.__name__.split('_', 2)[-1]` — the last element of
the at-most-two-splits split, i.e. the function name stripped of its first two
underscore-separated segments. -/
def roleToken (funcName : String) : String :=
  let ps := splitOnUnderscore funcName.data
  if ps.length ≤ 3 then ⟨ps.getLastD []⟩ else ⟨joinUnderscore (ps.drop 2)⟩

/-- Scanner for `fn_name.format(cls_name=...)`: replace every occurrence of the
placeholder (an opening brace, the letters of `cls_name`, a closing brace) by
the argument. -/
def formatClsNameAux (v : List Char) : List Char → List Char
  | '\x7b' :: 'c' :: 'l' :: 's' :: '_' :: 'n' :: 'a' :: 'm' :: 'e' :: '\x7d' :: rest =>
      v ++ formatClsNameAux v rest
  | c :: rest => c :: formatClsNameAux v rest
  | [] => []

/-- Line 61: `fn_name.format(cls_name=tp.name)`. -/
def pyFormatClsName (fmt : String) (v : String) : String :=
  ⟨formatClsNameAux v.data fmt.data⟩

/-- Python truthiness of the `fn_name` parameter (`if fn_name:`): `None` and
the empty string are falsy. -/
def fnNameTruthy : Option String → Bool
  | none => false
  | some s => !(s == "")

/-- Lines 55–66: the procedure name reserved on a cache miss.  With a truthy
`fn_name` format string it is `fn_name.format(cls_name=tp.name)`; otherwise it
follows the template `_load_{cls_name}_{tp_name}_{tp.field_i}` (generic) or
`_load_{cls_name}_{tp_name}_{tp.name}` (non-generic), with `tp_name` the role
token derived from the decorated function's own name. -/
def genFnName (funcName : String) (fnName : Option String) (isGeneric : Bool)
    (tp : TypeInfo) (clsName : String) : String :=
  if fnNameTruthy fnName then
    pyFormatClsName (fnName.getD "") tp.name
  else if isGeneric then
    "_load_" ++ clsName ++ "_" ++ roleToken funcName ++ "_" ++ toString tp.field_i
  else
    "_load_" ++ clsName ++ "_" ++ roleToken funcName ++ "_" ++ tp.name

/-- Line 90: the returned call expression `f'{_fn_name}({tp.v()})'`. -/
def mkCallExpr (n : String) (tp : TypeInfo) : String :=
  n ++ "(" ++ tp.val_expr ++ ")"

/-- Lines 53, 68: the heap after the wrapper has written the reserved name into
the shared recursion guard (the write of line 68, performed before the body is
invoked). -/
def missGuardStore (funcName : String) (fnName : Option String) (isGeneric : Bool)
    (tp : TypeInfo) (extras : Extras) (st : Store) : Store :=
  st.writeGuard extras.recursion_guard
    (guardSet (st.readGuard extras.recursion_guard) (cacheKey isGeneric tp)
      (genFnName funcName fnName isGeneric tp extras.cls_name))

/-- Line 76: the reference of the freshly allocated `FunctionBuilder()`.  The
guard write does not touch the builder heap, so this is the next free builder
slot of the original heap. -/
def missNewRef (st : Store) : Ref := st.builders.length

/-- Line 76: the heap after allocating the fresh nested `FunctionBuilder()`. -/
def missAllocStore (funcName : String) (fnName : Option String) (isGeneric : Bool)
    (tp : TypeInfo) (extras : Extras) (st : Store) : Store :=
  ((missGuardStore funcName fnName isGeneric tp extras st).allocBuilder
    FunctionBuilder.empty).2

/-- Lines 74–76: `updated_extras` — a shallow copy of the caller's context in
which `'locals'` is a fresh mapping seeded with the concrete type under `'cls'`
and `'fn_gen'` is the fresh builder's reference; every other entry, the shared
recursion guard's reference included, is copied unchanged. -/
def missUpdatedExtras (isGeneric : Bool) (tp : TypeInfo) (extras : Extras)
    (st : Store) : Extras :=
  { extras with
    locals := [("cls", cacheKey isGeneric tp)]
    fn_gen := missNewRef st }

/-- Lines 79–85: the heap the decorated body runs against.  In the plain mode
(falsy `fn_name`) the wrapper has additionally opened the named function scope
on the fresh builder. -/
def missPreBodyStore (funcName : String) (fnName : Option String) (isGeneric : Bool)
    (tp : TypeInfo) (extras : Extras) (st : Store) : Store :=
  let st2 := missAllocStore funcName fnName isGeneric tp extras st
  if fnNameTruthy fnName then st2
  else
    st2.modifyBuilder (missNewRef st)
      (fun b => b.beginFn (genFnName funcName fnName isGeneric tp extras.cls_name)
        ["v1"] (missUpdatedExtras isGeneric tp extras st).locals)

/-- Lines 56–90 of `_wrapper_logic`: the cache-miss branch.  Reserve the
generated name in the shared guard, allocate a fresh builder, shallow-copy the
context, run the decorated body (opening and sealing the function scope in the
plain mode; the scope seals even when the body raises, and an exception
propagates uncaught, skipping the merge), merge the nested builder into the
caller's builder, and return the call expression. -/
def wrapper_miss (func : DecoratedFunc) (fnName : Option String) (isGeneric : Bool)
    (tp : TypeInfo) (extras : Extras) (cls? : Option ClsCtx) (st : Store) :
    PyResult String :=
  let n := genFnName func.name fnName isGeneric tp extras.cls_name
  let newRef := missNewRef st
  let updEx := missUpdatedExtras isGeneric tp extras st
  let stPre := missPreBodyStore func.name fnName isGeneric tp extras st
  let res :=
    if fnNameTruthy fnName then
      func.run cls? tp updEx stPre
    else
      match func.run cls? tp updEx stPre with
      | .exn s => .exn (s.modifyBuilder newRef FunctionBuilder.sealFn)
      | .ok s u => .ok (s.modifyBuilder newRef FunctionBuilder.sealFn) u
  match res with
  | .exn s => .exn s
  | .ok s _ =>
    let newB := s.readBuilder newRef
    .ok (s.modifyBuilder extras.fn_gen (fun b => b.merge newB)) (mkCallExpr n tp)

/-- Lines 39–90: `_wrapper_logic(tp, extras, _cls=None)`.  On a cache hit
(line 55's `recursion_guard.get(cls)` finds a name) it returns the call
expression at once; otherwise it runs the miss branch.  The branch of lines
81/85 choosing between `func(_cls, tp, updated_extras)` and
`func(tp, updated_extras)` by the truthiness of `_cls` is the `Option ClsCtx`
passed through to `func.run`. -/
def wrapper_logic (func : DecoratedFunc) (fnName : Option String) (isGeneric : Bool)
    (tp : TypeInfo) (extras : Extras) (cls? : Option ClsCtx) (st : Store) :
    PyResult String :=
  match guardGet (st.readGuard extras.recursion_guard) (cacheKey isGeneric tp) with
  | some n => .ok st (mkCallExpr n tp)
  | none => wrapper_miss func fnName isGeneric tp extras cls? st

/-- The callable returned by the decorator: either the class-method wrapper
`wrapper_class_method(_cls, tp, extras)` or the plain `_wrapper_logic(tp,
extras)` with `_cls` defaulting to `None`. -/
inductive Wrapper where
  | classMethod (run : Option ClsCtx → TypeInfo → Extras → Store → PyResult String)
  | plain (run : TypeInfo → Extras → Store → PyResult String)

/-- Shape query used to state that the decorator's classification is a function
of the declared parameter count alone. -/
def isClassMethodShape : Wrapper → Bool
  | .classMethod _ => true
  | .plain _ => false

/-- Lines 92–114: `setup_recursive_safe_function`.  Line 94 classifies the
decorated function once, at decoration time, by
`func.__code__.co_argcount == 3`; the classification is total, so the
decorator never fails.  The `func is None` branch of line 34 is decorator
plumbing with no behavior of its own and is not modelled. -/
def setup_recursive_safe_function (func : DecoratedFunc) (fnName : Option String)
    (isGeneric : Bool) : Wrapper :=
  if func.argcount == 3 then
    .classMethod (fun c tp extras st => wrapper_logic func fnName isGeneric tp extras c st)
  else
    .plain (fun tp extras st => wrapper_logic func fnName isGeneric tp extras none st)

/-- Lines 117–133: the generic-mode helper decorator. -/
def setup_recursive_safe_function_for_generic (func : DecoratedFunc) : Wrapper :=
  setup_recursive_safe_function func none true

/-- A per-field compiler body that never deletes or overwrites an entry of the
guard at reference `r`: the discipline every real per-field compiler follows,
since bodies touch the guard only through nested wrapper calls. -/
def GuardMonotone (r : Ref) (func : DecoratedFunc) : Prop :=
  ∀ c tp ex st st' u, func.run c tp ex st = .ok st' u →
    ∀ k v, guardGet (st.readGuard r) k = some v → guardGet (st'.readGuard r) k = some v

/-! ## List and store algebra -/

theorem getD_set_self {α : Type} (l : List α) (i : Nat) (a d : α) (h : i < l.length) :
    (l.set i a).getD i d = a := by
  simp [List.getD, List.getElem?_set_self', h]

theorem getD_set_ne {α : Type} (l : List α) (i j : Nat) (a d : α) (h : i ≠ j) :
    (l.set i a).getD j d = l.getD j d := by
  simp [List.getD, List.getElem?_set_ne h]

theorem getD_append_left {α : Type} (l l' : List α) (i : Nat) (d : α) (h : i < l.length) :
    (l ++ l').getD i d = l.getD i d := by
  simp [List.getD, List.getElem?_append_left h]

theorem getD_append_length {α : Type} (l : List α) (a d : α) :
    (l ++ [a]).getD l.length d = a := by
  simp [List.getD, List.getElem?_append_right (Nat.le_refl _)]

theorem readGuard_writeGuard_self (st : Store) (r : Ref) (g : Guard)
    (h : r < st.guards.length) : (st.writeGuard r g).readGuard r = g :=
  getD_set_self _ _ _ _ h

theorem writeGuard_guards_length (st : Store) (r : Ref) (g : Guard) :
    (st.writeGuard r g).guards.length = st.guards.length := by
  simp [Store.writeGuard]

theorem writeGuard_builders (st : Store) (r : Ref) (g : Guard) :
    (st.writeGuard r g).builders = st.builders := rfl

theorem writeGuard_log (st : Store) (r : Ref) (g : Guard) :
    (st.writeGuard r g).log = st.log := rfl

theorem allocBuilder_guards (st : Store) (b : FunctionBuilder) :
    ((st.allocBuilder b).2).guards = st.guards := rfl

theorem allocBuilder_log (st : Store) (b : FunctionBuilder) :
    ((st.allocBuilder b).2).log = st.log := rfl

theorem modifyBuilder_guards (st : Store) (r : Ref) (f : FunctionBuilder → FunctionBuilder) :
    (st.modifyBuilder r f).guards = st.guards := rfl

theorem modifyBuilder_log (st : Store) (r : Ref) (f : FunctionBuilder → FunctionBuilder) :
    (st.modifyBuilder r f).log = st.log := rfl

theorem readGuard_allocBuilder (st : Store) (b : FunctionBuilder) (r : Ref) :
    ((st.allocBuilder b).2).readGuard r = st.readGuard r := rfl

theorem readGuard_modifyBuilder (st : Store) (r' : Ref)
    (f : FunctionBuilder → FunctionBuilder) (r : Ref) :
    (st.modifyBuilder r' f).readGuard r = st.readGuard r := rfl

theorem readBuilder_allocBuilder_new (st : Store) (b : FunctionBuilder) :
    ((st.allocBuilder b).2).readBuilder (st.allocBuilder b).1 = b :=
  getD_append_length _ _ _

theorem readBuilder_allocBuilder_old (st : Store) (b : FunctionBuilder) (r : Ref)
    (h : r < st.builders.length) :
    ((st.allocBuilder b).2).readBuilder r = st.readBuilder r :=
  getD_append_left _ _ _ _ h

theorem readBuilder_modifyBuilder_ne (st : Store) (r' r : Ref)
    (f : FunctionBuilder → FunctionBuilder) (h : r' ≠ r) :
    (st.modifyBuilder r' f).readBuilder r = st.readBuilder r :=
  getD_set_ne _ _ _ _ _ h

/-! ## Guard dictionary lemmas -/

theorem guardSet_of_none {g : Guard} {k : Key} (v : String)
    (h : guardGet g k = none) : guardSet g k v = g ++ [(k, v)] := by
  unfold guardSet
  have hf : g.find? (fun p => p.1 == k) = none := by
    unfold guardGet at h
    cases hf : g.find? (fun p => p.1 == k) with
    | none => rfl
    | some p => rw [hf] at h; simp at h
  rw [hf]
  simp

theorem guardGet_append_self {g : Guard} {k : Key} (v : String)
    (h : guardGet g k = none) : guardGet (g ++ [(k, v)]) k = some v := by
  unfold guardGet at h ⊢
  have hf : g.find? (fun p => p.1 == k) = none := by
    cases hf : g.find? (fun p => p.1 == k) with
    | none => rfl
    | some p => rw [hf] at h; simp at h
  simp [List.find?_append, hf]

theorem guardGet_append_of_some {g : Guard} {k' : Key} {v' : String}
    (k : Key) (v : String) (h : guardGet g k' = some v') :
    guardGet (g ++ [(k, v)]) k' = some v' := by
  unfold guardGet at h ⊢
  cases hf : g.find? (fun p => p.1 == k') with
  | none => rw [hf] at h; simp at h
  | some p =>
    rw [hf] at h
    simp [List.find?_append, hf]
    simpa using h

theorem guardGet_append_ne {g : Guard} {k' k : Key} (v : String) (h : k' ≠ k) :
    guardGet (g ++ [(k, v)]) k' = guardGet g k' := by
  unfold guardGet
  rw [List.find?_append]
  cases hf : g.find? (fun p => p.1 == k') with
  | some p => simp
  | none =>
    simp only [Option.or]
    have : ((k, v).1 == k') = false := by
      simp only [beq_iff_eq]
      simp [Ne.symm h]
    simp [List.find?, this]

theorem guardKeys_append (g : Guard) (k : Key) (v : String) :
    guardKeys (g ++ [(k, v)]) = guardKeys g ++ [k] := by
  simp [guardKeys]

theorem not_mem_guardKeys_of_none {g : Guard} {k : Key}
    (h : guardGet g k = none) : k ∉ guardKeys g := by
  intro hmem
  unfold guardKeys at hmem
  obtain ⟨⟨k', v'⟩, hp, hk⟩ := List.mem_map.mp hmem
  subst hk
  unfold guardGet at h
  cases hf : g.find? (fun p => p.1 == (k', v').1) with
  | none =>
    have := List.find?_eq_none.mp hf (k', v') hp
    simp at this
  | some p => rw [hf] at h; simp at h

theorem guardGet_isSome_of_mem {g : Guard} {k : Key} (h : k ∈ guardKeys g) :
    (guardGet g k).isSome := by
  by_contra hc
  have hnone : guardGet g k = none := by
    cases hg : guardGet g k with
    | none => rfl
    | some v => rw [hg] at hc; simp at hc
  exact not_mem_guardKeys_of_none hnone h

/-! ## Characterization of the wrapper's branches -/

theorem wrapper_logic_hit (func : DecoratedFunc) (fnName : Option String)
    (isGeneric : Bool) (tp : TypeInfo) (extras : Extras) (cls? : Option ClsCtx)
    (st : Store) (n : String)
    (h : guardGet (st.readGuard extras.recursion_guard) (cacheKey isGeneric tp) = some n) :
    wrapper_logic func fnName isGeneric tp extras cls? st = .ok st (mkCallExpr n tp) := by
  unfold wrapper_logic
  rw [h]

theorem wrapper_logic_miss (func : DecoratedFunc) (fnName : Option String)
    (isGeneric : Bool) (tp : TypeInfo) (extras : Extras) (cls? : Option ClsCtx)
    (st : Store)
    (h : guardGet (st.readGuard extras.recursion_guard) (cacheKey isGeneric tp) = none) :
    wrapper_logic func fnName isGeneric tp extras cls? st =
      wrapper_miss func fnName isGeneric tp extras cls? st := by
  unfold wrapper_logic
  rw [h]

/-- Closed form of the miss branch in the externally-opened-scope mode (truthy
`fn_name`): run the body, merge the nested builder into the caller's, return
the call expression; an exception propagates with no merge. -/
def missResultTruthy (func : DecoratedFunc) (fnName : Option String) (isGeneric : Bool)
    (tp : TypeInfo) (extras : Extras) (cls? : Option ClsCtx) (st : Store) :
    PyResult String :=
  match func.run cls? tp (missUpdatedExtras isGeneric tp extras st)
      (missPreBodyStore func.name fnName isGeneric tp extras st) with
  | .exn s => .exn s
  | .ok s _ =>
    .ok (s.modifyBuilder extras.fn_gen
          (fun b => b.merge (s.readBuilder (missNewRef st))))
      (mkCallExpr (genFnName func.name fnName isGeneric tp extras.cls_name) tp)

/-- Closed form of the miss branch in the plain mode (falsy `fn_name`): the
function scope on the fresh builder is sealed when the `with` block exits even
on an exception; merge happens only on normal return. -/
def missResultPlain (func : DecoratedFunc) (fnName : Option String) (isGeneric : Bool)
    (tp : TypeInfo) (extras : Extras) (cls? : Option ClsCtx) (st : Store) :
    PyResult String :=
  match func.run cls? tp (missUpdatedExtras isGeneric tp extras st)
      (missPreBodyStore func.name fnName isGeneric tp extras st) with
  | .exn s => .exn (s.modifyBuilder (missNewRef st) FunctionBuilder.sealFn)
  | .ok s _ =>
    .ok ((s.modifyBuilder (missNewRef st) FunctionBuilder.sealFn).modifyBuilder
          extras.fn_gen
          (fun b => b.merge ((s.modifyBuilder (missNewRef st)
            FunctionBuilder.sealFn).readBuilder (missNewRef st))))
      (mkCallExpr (genFnName func.name fnName isGeneric tp extras.cls_name) tp)

theorem wrapper_miss_eq_truthy (func : DecoratedFunc) (fnName : Option String)
    (isGeneric : Bool) (tp : TypeInfo) (extras : Extras) (cls? : Option ClsCtx)
    (st : Store) (ht : fnNameTruthy fnName = true) :
    wrapper_miss func fnName isGeneric tp extras cls? st =
      missResultTruthy func fnName isGeneric tp extras cls? st := by
  unfold wrapper_miss missResultTruthy
  rw [ht]
  simp only [if_true]

theorem wrapper_miss_eq_plain (func : DecoratedFunc) (fnName : Option String)
    (isGeneric : Bool) (tp : TypeInfo) (extras : Extras) (cls? : Option ClsCtx)
    (st : Store) (ht : fnNameTruthy fnName = false) :
    wrapper_miss func fnName isGeneric tp extras cls? st =
      missResultPlain func fnName isGeneric tp extras cls? st := by
  unfold wrapper_miss missResultPlain
  rw [ht]
  simp only [Bool.false_eq_true, if_false]
  cases hres : func.run cls? tp (missUpdatedExtras isGeneric tp extras st)
      (missPreBodyStore func.name fnName isGeneric tp extras st) with
  | exn s => simp
  | ok s u => simp

/-- The guard of the heap the body runs against: the caller's guard with the
reserved name appended to the shared guard object. -/
theorem readGuard_missPreBodyStore (funcName : String) (fnName : Option String)
    (isGeneric : Bool) (tp : TypeInfo) (extras : Extras) (st : Store)
    (hr : extras.recursion_guard < st.guards.length)
    (hmiss : guardGet (st.readGuard extras.recursion_guard) (cacheKey isGeneric tp) = none) :
    (missPreBodyStore funcName fnName isGeneric tp extras st).readGuard
        extras.recursion_guard =
      st.readGuard extras.recursion_guard ++
        [(cacheKey isGeneric tp, genFnName funcName fnName isGeneric tp extras.cls_name)] := by
  unfold missPreBodyStore missAllocStore
  cases ht : fnNameTruthy fnName <;>
    simp only [Bool.false_eq_true, if_false, if_true, readGuard_modifyBuilder,
      readGuard_allocBuilder] <;>
  · unfold missGuardStore
    rw [readGuard_writeGuard_self _ _ _ hr, guardSet_of_none _ hmiss]

theorem missPreBodyStore_guards_length (funcName : String) (fnName : Option String)
    (isGeneric : Bool) (tp : TypeInfo) (extras : Extras) (st : Store) :
    (missPreBodyStore funcName fnName isGeneric tp extras st).guards.length =
      st.guards.length := by
  unfold missPreBodyStore missAllocStore
  cases ht : fnNameTruthy fnName <;>
    simp [Store.modifyBuilder, Store.allocBuilder, missGuardStore, Store.writeGuard]

theorem missPreBodyStore_log (funcName : String) (fnName : Option String)
    (isGeneric : Bool) (tp : TypeInfo) (extras : Extras) (st : Store) :
    (missPreBodyStore funcName fnName isGeneric tp extras st).log = st.log := by
  unfold missPreBodyStore missAllocStore
  cases ht : fnNameTruthy fnName <;>
    simp [Store.modifyBuilder, Store.allocBuilder, missGuardStore, Store.writeGuard]

/-- Builders below the allocation point are untouched by the wrapper's
pre-body steps; in particular the caller's builder is as the caller left it. -/
theorem readBuilder_missPreBodyStore_old (funcName : String) (fnName : Option String)
    (isGeneric : Bool) (tp : TypeInfo) (extras : Extras) (st : Store) (r : Ref)
    (h : r < st.builders.length) :
    (missPreBodyStore funcName fnName isGeneric tp extras st).readBuilder r =
      st.readBuilder r := by
  have halloc : (missAllocStore funcName fnName isGeneric tp extras st).readBuilder r =
      st.readBuilder r := by
    unfold missAllocStore
    have hb : (missGuardStore funcName fnName isGeneric tp extras st).builders =
        st.builders := rfl
    rw [readBuilder_allocBuilder_old _ _ _ (by rw [hb]; exact h)]
    rfl
  unfold missPreBodyStore
  cases ht : fnNameTruthy fnName with
  | true => simpa [ht] using halloc
  | false =>
    simp only [ht, Bool.false_eq_true, if_false]
    rw [readBuilder_modifyBuilder_ne _ (missNewRef st) r _ ((Nat.ne_of_lt h).symm)]
    exact halloc

/-- The freshly allocated nested builder starts out empty. -/
theorem readBuilder_missAllocStore_new (funcName : String) (fnName : Option String)
    (isGeneric : Bool) (tp : TypeInfo) (extras : Extras) (st : Store) :
    (missAllocStore funcName fnName isGeneric tp extras st).readBuilder
      (missNewRef st) = FunctionBuilder.empty := by
  unfold missAllocStore
  have hb : (missGuardStore funcName fnName isGeneric tp extras st).builders.length =
      st.builders.length := rfl
  have := readBuilder_allocBuilder_new
    (missGuardStore funcName fnName isGeneric tp extras st) FunctionBuilder.empty
  simpa [Store.allocBuilder, missNewRef, hb] using this

/-! ## String helpers -/

theorem string_ext {s t : String} (h : s.data = t.data) : s = t := by
  cases s; cases t; exact congrArg String.mk h

theorem string_append_left_cancel {s a b : String} (h : s ++ a = s ++ b) : a = b := by
  apply string_ext
  have hd := congrArg String.data h
  rw [String.data_append, String.data_append] at hd
  exact List.append_cancel_left hd

theorem string_append_right_cancel {a b s : String} (h : a ++ s = b ++ s) : a = b := by
  apply string_ext
  have hd := congrArg String.data h
  rw [String.data_append, String.data_append] at hd
  exact List.append_cancel_right hd

/-! ## Claim theorems -/

/-- C9: on a cache hit the wrapper call is read-only.  The returned heap is the
input heap itself, so the recursion guard, every `FunctionBuilder` and the
caller's context are untouched, and the result is the reserved name applied to
`tp.v()`.  The equation holds for every decorated body `func`, so the body is
not invoked: the result does not depend on it. -/
theorem C9_cache_hit_read_only (func : DecoratedFunc) (fnName : Option String)
    (isGeneric : Bool) (tp : TypeInfo) (extras : Extras) (cls? : Option ClsCtx)
    (st : Store) (n : String)
    (h : guardGet (st.readGuard extras.recursion_guard) (cacheKey isGeneric tp) = some n) :
    wrapper_logic func fnName isGeneric tp extras cls? st = .ok st (mkCallExpr n tp) :=
  wrapper_logic_hit func fnName isGeneric tp extras cls? st n h

/-- C4: with no `fn_name` format string, the generic-mode name is the record
display name plus the role token plus the positional index `tp.field_i`, the
non-generic name is the record display name plus the role token plus the
declared name `tp.name`, and the two templates yield distinct names whenever
the declared name differs from the decimal rendering of the index (a
descriptor's display name is an identifier, never a bare numeral). -/
theorem C4_naming_templates (funcName : String) (tp : TypeInfo) (clsName : String)
    (tpA tpB : TypeInfo) (h : tpB.name ≠ toString tpA.field_i) :
    genFnName funcName none true tp clsName =
      "_load_" ++ clsName ++ "_" ++ roleToken funcName ++ "_" ++ toString tp.field_i ∧
    genFnName funcName none false tp clsName =
      "_load_" ++ clsName ++ "_" ++ roleToken funcName ++ "_" ++ tp.name ∧
    genFnName funcName none true tpA clsName ≠
      genFnName funcName none false tpB clsName := by
  refine ⟨by simp [genFnName, fnNameTruthy], by simp [genFnName, fnNameTruthy], ?_⟩
  simp only [genFnName, fnNameTruthy, Bool.false_eq_true, if_false, if_true]
  intro heq
  exact h ((string_append_left_cancel heq).symm)

/-- C5 counterexample: two distinct per-field compilers named `_load_x` and
`_dump_x` produce the same role token `x` and hence identical generated
procedure names for the same field of the same record, so "the generated
procedure names never collide" fails as stated. -/
theorem C5_counterexample :
    ("_load_x" : String) ≠ "_dump_x" ∧
    genFnName "_load_x" none false ⟨0, [], "f", 0, "v"⟩ "R" =
      genFnName "_dump_x" none false ⟨0, [], "f", 0, "v"⟩ "R" := by
  exact ⟨by decide, by decide⟩

/-- C5 amended: the role token is `func.__name__.split('_', 2)[-1]`, the
compiler's name stripped of its first two underscore-separated segments; two
per-field compilers collide on a field exactly when these tokens coincide, and
never collide when the tokens differ (as with the real loader and dumper
compiler names, whose remainders keep the `load`/`dump` distinction). -/
theorem C5_role_token_distinctness (f1 f2 : String) (isGeneric : Bool)
    (tp : TypeInfo) (clsName : String) (h : roleToken f1 ≠ roleToken f2) :
    genFnName f1 none isGeneric tp clsName ≠ genFnName f2 none isGeneric tp clsName := by
  cases isGeneric <;>
  · simp only [genFnName, fnNameTruthy, Bool.false_eq_true, if_false, if_true]
    intro heq
    exact h (string_append_left_cancel
      (string_append_right_cancel (string_append_right_cancel heq)))

/-- C7: the decorator's shape classification is performed once, at decoration
time, as a total function of the declared parameter count (`co_argcount == 3`),
so the "cannot be classified" failure (`AmbiguousClassContextError`) is
unreachable: a wrapper is produced for every parameter count.  The second
conjunct shows classification is not re-done per invocation: a call's behavior
depends only on the compiler's name and body, never on its parameter count. -/
theorem C7_classification_total_static (func : DecoratedFunc) (fnName : Option String)
    (isGeneric : Bool) :
    isClassMethodShape (setup_recursive_safe_function func fnName isGeneric) =
      (func.argcount == 3) ∧
    (∀ g : DecoratedFunc, g.name = func.name → g.run = func.run →
      ∀ tp extras cls? st,
        wrapper_logic g fnName isGeneric tp extras cls? st =
          wrapper_logic func fnName isGeneric tp extras cls? st) := by
  constructor
  · unfold setup_recursive_safe_function
    cases h : func.argcount == 3 <;> simp [h, isClassMethodShape]
  · rintro ⟨n', a', r'⟩ hname hrun tp extras cls? st
    obtain ⟨n, a, r⟩ := func
    obtain rfl : n' = n := hname
    obtain rfl : r' = r := hrun
    rfl

/-- C10: an arity-3 compiler gets the class-method wrapper taking
`(_cls, tp, extras)`; any other arity gets the plain wrapper; the decision is
the decoration-time `co_argcount == 3` test and neither shape raises.  The
third conjunct shows the body is invoked with exactly the class context the
wrapper received (`func(_cls, tp, extras)` through `some c`, `func(tp,
extras)` through `none`), via the closed form of the miss branch. -/
theorem C10_shape_dispatch (func : DecoratedFunc) (fnName : Option String)
    (isGeneric : Bool) :
    (func.argcount = 3 →
      setup_recursive_safe_function func fnName isGeneric =
        .classMethod (fun c tp extras st =>
          wrapper_logic func fnName isGeneric tp extras c st)) ∧
    (func.argcount ≠ 3 →
      setup_recursive_safe_function func fnName isGeneric =
        .plain (fun tp extras st =>
          wrapper_logic func fnName isGeneric tp extras none st)) ∧
    (∀ tp extras cls? st, fnNameTruthy fnName = false →
      guardGet (st.readGuard extras.recursion_guard) (cacheKey isGeneric tp) = none →
      wrapper_logic func fnName isGeneric tp extras cls? st =
        missResultPlain func fnName isGeneric tp extras cls? st) := by
  refine ⟨?_, ?_, ?_⟩
  · intro h
    simp [setup_recursive_safe_function, h]
  · intro h
    simp [setup_recursive_safe_function, beq_iff_eq, h]
  · intro tp extras cls? st ht hmiss
    rw [wrapper_logic_miss _ _ _ _ _ _ _ hmiss,
      wrapper_miss_eq_plain _ _ _ _ _ _ _ ht]

/-- C2: on a cache miss the reserved name is written into the shared guard
before the body runs.  Conjunct 1: the heap handed to the body already carries
the entry.  Conjunct 2: the wrapper's write preserves every existing entry
(never overwrites or removes).  Conjunct 3: the wrapper's behavior depends on
the body only through its values on heaps carrying the reserved entry — the
body is never invoked on a heap without it.  Conjunct 4: any re-entrant call
whose descriptor has the same cache key, made while the entry is present,
returns the already-reserved name applied to its own value expression, on an
unchanged heap, for every body. -/
theorem C2_reserve_before_body (func : DecoratedFunc) (fnName : Option String)
    (isGeneric : Bool) (tp : TypeInfo) (extras : Extras) (cls? : Option ClsCtx)
    (st : Store)
    (hr : extras.recursion_guard < st.guards.length)
    (hmiss : guardGet (st.readGuard extras.recursion_guard) (cacheKey isGeneric tp) = none) :
    guardGet ((missPreBodyStore func.name fnName isGeneric tp extras st).readGuard
        extras.recursion_guard) (cacheKey isGeneric tp) =
      some (genFnName func.name fnName isGeneric tp extras.cls_name) ∧
    (∀ k v, guardGet (st.readGuard extras.recursion_guard) k = some v →
      guardGet ((missPreBodyStore func.name fnName isGeneric tp extras st).readGuard
        extras.recursion_guard) k = some v) ∧
    (∀ g : DecoratedFunc, g.name = func.name →
      (∀ c t e s,
        guardGet (s.readGuard extras.recursion_guard) (cacheKey isGeneric tp) =
          some (genFnName func.name fnName isGeneric tp extras.cls_name) →
        g.run c t e s = func.run c t e s) →
      wrapper_logic g fnName isGeneric tp extras cls? st =
        wrapper_logic func fnName isGeneric tp extras cls? st) ∧
    (∀ (g : DecoratedFunc) (fnN' : Option String) (isG' : Bool) (tp' : TypeInfo)
        (extras' : Extras) (c' : Option ClsCtx) (stMid : Store),
      cacheKey isG' tp' = cacheKey isGeneric tp →
      extras'.recursion_guard = extras.recursion_guard →
      guardGet (stMid.readGuard extras.recursion_guard) (cacheKey isGeneric tp) =
        some (genFnName func.name fnName isGeneric tp extras.cls_name) →
      wrapper_logic g fnN' isG' tp' extras' c' stMid =
        .ok stMid (mkCallExpr (genFnName func.name fnName isGeneric tp extras.cls_name)
          tp')) := by
  have h1 : guardGet ((missPreBodyStore func.name fnName isGeneric tp extras st).readGuard
      extras.recursion_guard) (cacheKey isGeneric tp) =
      some (genFnName func.name fnName isGeneric tp extras.cls_name) := by
    rw [readGuard_missPreBodyStore _ _ _ _ _ _ hr hmiss]
    exact guardGet_append_self _ hmiss
  refine ⟨h1, ?_, ?_, ?_⟩
  · intro k v hv
    rw [readGuard_missPreBodyStore _ _ _ _ _ _ hr hmiss]
    exact guardGet_append_of_some _ _ hv
  · intro g hname hagree
    rw [wrapper_logic_miss _ _ _ _ _ _ _ hmiss, wrapper_logic_miss _ _ _ _ _ _ _ hmiss]
    cases ht : fnNameTruthy fnName with
    | true =>
      rw [wrapper_miss_eq_truthy _ _ _ _ _ _ _ ht, wrapper_miss_eq_truthy _ _ _ _ _ _ _ ht]
      unfold missResultTruthy
      rw [hname, hagree cls? tp (missUpdatedExtras isGeneric tp extras st)
        (missPreBodyStore func.name fnName isGeneric tp extras st) h1]
    | false =>
      rw [wrapper_miss_eq_plain _ _ _ _ _ _ _ ht, wrapper_miss_eq_plain _ _ _ _ _ _ _ ht]
      unfold missResultPlain
      rw [hname, hagree cls? tp (missUpdatedExtras isGeneric tp extras st)
        (missPreBodyStore func.name fnName isGeneric tp extras st) h1]
  · intro g fnN' isG' tp' extras' c' stMid hkey href hmid
    apply wrapper_logic_hit
    rw [href, hkey]
    exact hmid

/-- C6: on a cache miss the context is shallow-copied: the copy carries the
very same recursion-guard reference (shared by reference), the same record
display name, a fresh `locals` mapping seeded with the concrete type under
`'cls'`, and a reference to a freshly allocated, empty `FunctionBuilder`
distinct from the caller's; on normal return of the body, the sealed nested
builder is merged into the caller's builder, which is the only object the
wrapper mutates after the body.  The caller's `extras` itself is only read and
copied, never written through. -/
theorem C6_nested_context_isolation (func : DecoratedFunc) (fnName : Option String)
    (isGeneric : Bool) (tp : TypeInfo) (extras : Extras) (cls? : Option ClsCtx)
    (st : Store)
    (hb : extras.fn_gen < st.builders.length)
    (hmiss : guardGet (st.readGuard extras.recursion_guard) (cacheKey isGeneric tp) = none)
    (ht : fnNameTruthy fnName = false) :
    (missUpdatedExtras isGeneric tp extras st).recursion_guard = extras.recursion_guard ∧
    (missUpdatedExtras isGeneric tp extras st).cls_name = extras.cls_name ∧
    (missUpdatedExtras isGeneric tp extras st).locals = [("cls", cacheKey isGeneric tp)] ∧
    (missUpdatedExtras isGeneric tp extras st).fn_gen ≠ extras.fn_gen ∧
    (missAllocStore func.name fnName isGeneric tp extras st).readBuilder
      (missUpdatedExtras isGeneric tp extras st).fn_gen = FunctionBuilder.empty ∧
    (∀ s u, func.run cls? tp (missUpdatedExtras isGeneric tp extras st)
        (missPreBodyStore func.name fnName isGeneric tp extras st) = .ok s u →
      wrapper_logic func fnName isGeneric tp extras cls? st =
        .ok ((s.modifyBuilder (missNewRef st) FunctionBuilder.sealFn).modifyBuilder
              extras.fn_gen
              (fun b => b.merge ((s.modifyBuilder (missNewRef st)
                FunctionBuilder.sealFn).readBuilder (missNewRef st))))
          (mkCallExpr (genFnName func.name fnName isGeneric tp extras.cls_name) tp)) := by
  refine ⟨rfl, rfl, rfl, ?_, ?_, ?_⟩
  · exact (Nat.ne_of_lt hb).symm
  · exact readBuilder_missAllocStore_new func.name fnName isGeneric tp extras st
  · intro s u hrun
    rw [wrapper_logic_miss _ _ _ _ _ _ _ hmiss, wrapper_miss_eq_plain _ _ _ _ _ _ _ ht]
    unfold missResultPlain
    rw [hrun]

/-- C8: when the body of a cache-miss compilation raises, the exception
propagates uncaught (the wrapper's result is the propagating exception; the
only wrapper step still applied is the scope seal of the `with` block, which
touches only the fresh nested builder).  The nested builder is never merged:
the caller's builder is untouched by the wrapper's exception path, and —
provided the body did not itself write through the caller's builder reference,
which it does not receive — the caller's accumulated procedure set is exactly
what it was before the call. -/
theorem C8_exception_aborts_merge (func : DecoratedFunc) (fnName : Option String)
    (isGeneric : Bool) (tp : TypeInfo) (extras : Extras) (cls? : Option ClsCtx)
    (st : Store)
    (hb : extras.fn_gen < st.builders.length)
    (hmiss : guardGet (st.readGuard extras.recursion_guard) (cacheKey isGeneric tp) = none)
    (ht : fnNameTruthy fnName = false)
    (s : Store)
    (hexn : func.run cls? tp (missUpdatedExtras isGeneric tp extras st)
      (missPreBodyStore func.name fnName isGeneric tp extras st) = .exn s) :
    wrapper_logic func fnName isGeneric tp extras cls? st =
      .exn (s.modifyBuilder (missNewRef st) FunctionBuilder.sealFn) ∧
    (s.modifyBuilder (missNewRef st) FunctionBuilder.sealFn).readBuilder extras.fn_gen =
      s.readBuilder extras.fn_gen ∧
    (s.readBuilder extras.fn_gen =
        (missPreBodyStore func.name fnName isGeneric tp extras st).readBuilder
          extras.fn_gen →
      (s.modifyBuilder (missNewRef st) FunctionBuilder.sealFn).readBuilder extras.fn_gen =
        st.readBuilder extras.fn_gen) := by
  have h2 : (s.modifyBuilder (missNewRef st) FunctionBuilder.sealFn).readBuilder
      extras.fn_gen = s.readBuilder extras.fn_gen :=
    readBuilder_modifyBuilder_ne _ (missNewRef st) extras.fn_gen _ ((Nat.ne_of_lt hb).symm)
  refine ⟨?_, h2, ?_⟩
  · rw [wrapper_logic_miss _ _ _ _ _ _ _ hmiss, wrapper_miss_eq_plain _ _ _ _ _ _ _ ht]
    unfold missResultPlain
    rw [hexn]
  · intro hfr
    rw [h2, hfr, readBuilder_missPreBodyStore_old _ _ _ _ _ _ _ hb]

/-- C1: every successful wrapper call returns the reserved name applied to the
descriptor's value expression, with that name recorded in the shared guard of
the resulting heap; and any later call through the same shared guard whose
descriptor has an equal cache key returns a call expression referencing the
same reserved name, on an unchanged heap, for every body — so within one
top-level compile the per-field compiler runs at most once per cache key (the
first call contains the only body invocation; the quantification over
`func2` shows the second call invokes none). -/
theorem C1_reserved_call_and_dedup (func : DecoratedFunc) (fnName : Option String)
    (isGeneric : Bool) (tp1 : TypeInfo) (extras : Extras) (cls1 : Option ClsCtx)
    (st st1 : Store) (res1 : String)
    (hr : extras.recursion_guard < st.guards.length)
    (hmono : GuardMonotone extras.recursion_guard func)
    (h1 : wrapper_logic func fnName isGeneric tp1 extras cls1 st = .ok st1 res1) :
    ∃ n, guardGet (st1.readGuard extras.recursion_guard) (cacheKey isGeneric tp1) =
        some n ∧
      res1 = mkCallExpr n tp1 ∧
      ∀ (func2 : DecoratedFunc) (fnN2 : Option String) (isG2 : Bool) (tp2 : TypeInfo)
        (extras2 : Extras) (c2 : Option ClsCtx),
        extras2.recursion_guard = extras.recursion_guard →
        cacheKey isG2 tp2 = cacheKey isGeneric tp1 →
        wrapper_logic func2 fnN2 isG2 tp2 extras2 c2 st1 = .ok st1 (mkCallExpr n tp2) := by
  cases hget : guardGet (st.readGuard extras.recursion_guard) (cacheKey isGeneric tp1) with
  | some n =>
    rw [wrapper_logic_hit func fnName isGeneric tp1 extras cls1 st n hget] at h1
    injection h1 with hst hres
    subst hst
    refine ⟨n, hget, hres.symm, ?_⟩
    intro func2 fnN2 isG2 tp2 extras2 c2 href hkey
    apply wrapper_logic_hit
    rw [href, hkey]
    exact hget
  | none =>
    rw [wrapper_logic_miss _ _ _ _ _ _ _ hget] at h1
    have hpre : guardGet ((missPreBodyStore func.name fnName isGeneric tp1 extras
        st).readGuard extras.recursion_guard) (cacheKey isGeneric tp1) =
        some (genFnName func.name fnName isGeneric tp1 extras.cls_name) := by
      rw [readGuard_missPreBodyStore _ _ _ _ _ _ hr hget]
      exact guardGet_append_self _ hget
    cases ht : fnNameTruthy fnName with
    | true =>
      rw [wrapper_miss_eq_truthy _ _ _ _ _ _ _ ht] at h1
      unfold missResultTruthy at h1
      cases hbody : func.run cls1 tp1 (missUpdatedExtras isGeneric tp1 extras st)
          (missPreBodyStore func.name fnName isGeneric tp1 extras st) with
      | exn s =>
        rw [hbody] at h1
        exact PyResult.noConfusion h1
      | ok s u =>
        rw [hbody] at h1
        injection h1 with hst hres
        subst hst
        have hentry : guardGet (s.readGuard extras.recursion_guard)
            (cacheKey isGeneric tp1) =
            some (genFnName func.name fnName isGeneric tp1 extras.cls_name) :=
          hmono cls1 tp1 _ _ _ u hbody _ _ hpre
        refine ⟨genFnName func.name fnName isGeneric tp1 extras.cls_name, ?_, hres.symm, ?_⟩
        · rw [readGuard_modifyBuilder]
          exact hentry
        · intro func2 fnN2 isG2 tp2 extras2 c2 href hkey
          apply wrapper_logic_hit
          rw [href, hkey, readGuard_modifyBuilder]
          exact hentry
    | false =>
      rw [wrapper_miss_eq_plain _ _ _ _ _ _ _ ht] at h1
      unfold missResultPlain at h1
      cases hbody : func.run cls1 tp1 (missUpdatedExtras isGeneric tp1 extras st)
          (missPreBodyStore func.name fnName isGeneric tp1 extras st) with
      | exn s =>
        rw [hbody] at h1
        exact PyResult.noConfusion h1
      | ok s u =>
        rw [hbody] at h1
        injection h1 with hst hres
        subst hst
        have hentry : guardGet (s.readGuard extras.recursion_guard)
            (cacheKey isGeneric tp1) =
            some (genFnName func.name fnName isGeneric tp1 extras.cls_name) :=
          hmono cls1 tp1 _ _ _ u hbody _ _ hpre
        refine ⟨genFnName func.name fnName isGeneric tp1 extras.cls_name, ?_, hres.symm, ?_⟩
        · rw [readGuard_modifyBuilder, readGuard_modifyBuilder]
          exact hentry
        · intro func2 fnN2 isG2 tp2 extras2 c2 href hkey
          apply wrapper_logic_hit
          rw [href, hkey, readGuard_modifyBuilder, readGuard_modifyBuilder]
          exact hentry

/-! ## A finite type-dependency graph driven through the wrapper (for C3)

A client per-field compiler over a finite graph of types: compiling a node
compiles each of its dependencies through the wrapper, exactly the recursive
descent of the real per-field compilers.  The body appends its node's cache key
to the client-side `log` on entry, so the log records body invocations.  The
`fuel` parameter exists only to make the Lean function total; the theorem shows
a fuel of one more than the number of distinct types always suffices, which is
the termination claim. -/

structure TypeGraph where
  nodes : List TypeInfo
  depsOf : TypeInfo → List TypeInfo

def TypeGraph.nodeKeys (G : TypeGraph) : List Key :=
  G.nodes.map (fun t => Key.clsKey t.origin)

/-- Sequentially compile a list of dependency descriptors, aborting on the
first propagating exception. -/
def graphDepsAux (recur : TypeInfo → Extras → Store → PyResult String) :
    List TypeInfo → Extras → Store → PyResult Unit
  | [], _, st => .ok st ()
  | d :: ds, extras, st =>
    match recur d extras st with
    | .exn s => .exn s
    | .ok st' _ => graphDepsAux recur ds extras st'

/-- Compile one node through the recursive-safe wrapper, its body compiling
every dependency through the wrapper in turn (with the shallow-copied context
the wrapper provides, hence the same shared guard). -/
def graphCompile (G : TypeGraph) : Nat → TypeInfo → Extras → Store → PyResult String
  | 0 => fun _ _ st => .exn st
  | fuel + 1 => fun tp extras st =>
    wrapper_logic
      { name := "_load_node", argcount := 2,
        run := fun _ tp' ex' st' =>
          graphDepsAux (graphCompile G fuel) (G.depsOf tp') ex'
            { st' with log := st'.log ++ [Key.clsKey tp'.origin] } }
      none false tp extras none st

/-- Number of node keys of the graph not yet reserved in a guard: the measure
that shrinks at every body entry. -/
def gMissing (G : TypeGraph) (g : Guard) : Nat :=
  (G.nodeKeys.dedup.filter (fun k => (guardGet g k).isNone)).length

/-- One guard extends another: every entry of the first is still present, with
the same reserved name. -/
def guardExt (g g' : Guard) : Prop :=
  ∀ k v, guardGet g k = some v → guardGet g' k = some v

theorem guardExt_refl (g : Guard) : guardExt g g := fun _ _ h => h

theorem guardExt_trans {g1 g2 g3 : Guard} (h1 : guardExt g1 g2) (h2 : guardExt g2 g3) :
    guardExt g1 g3 := fun k v h => h2 k v (h1 k v h)

theorem guardExt_append (g : Guard) (k : Key) (n : String) :
    guardExt g (g ++ [(k, n)]) := fun _ _ h => guardGet_append_of_some _ _ h

/-- Invariant carried through the graph compilation: the client log is
duplicate-free and covered by the guard, and the guard binds each node key at
most once. -/
def GInv (G : TypeGraph) (r : Ref) (st : Store) : Prop :=
  st.log.Nodup ∧
  (∀ k ∈ st.log, (guardGet (st.readGuard r) k).isSome) ∧
  (guardKeys (st.readGuard r)).Nodup ∧
  (∀ k ∈ guardKeys (st.readGuard r), k ∈ G.nodeKeys)

theorem length_filter_mono {l : List Key} {p q : Key → Bool}
    (h : ∀ a ∈ l, p a = true → q a = true) :
    (l.filter p).length ≤ (l.filter q).length := by
  induction l with
  | nil => simp
  | cons a l ih =>
    rw [List.filter_cons, List.filter_cons]
    have ih' := ih (fun x hx => h x (List.mem_cons_of_mem a hx))
    cases hpa : p a with
    | false =>
      cases hqa : q a with
      | false => simpa using ih'
      | true =>
        simp only [if_true, if_false, Bool.false_eq_true, List.length_cons]
        exact Nat.le_succ_of_le ih'
    | true =>
      rw [h a (List.mem_cons_self a l) hpa]
      simp only [if_true, List.length_cons]
      exact Nat.succ_le_succ ih'

theorem length_filter_strict {l : List Key} {k : Key} {p : Key → Bool}
    (hnd : l.Nodup) (hk : k ∈ l) (hp : p k = true) :
    (l.filter (fun x => p x && !(x == k))).length < (l.filter p).length := by
  induction l with
  | nil => cases hk
  | cons a l ih =>
    rw [List.nodup_cons] at hnd
    obtain ⟨ha, hnd'⟩ := hnd
    rcases List.mem_cons.mp hk with rfl | hk'
    · rw [List.filter_cons, List.filter_cons]
      have heq : l.filter (fun x => p x && !(x == k)) = l.filter p := by
        apply List.filter_congr
        intro x hx
        have hxk : (x == k) = false := by
          simp only [beq_eq_false_iff_ne]
          intro hxa
          exact ha (hxa ▸ hx)
        simp [hxk]
      simp only [hp, beq_self_eq_true, Bool.not_true, Bool.and_false, Bool.false_eq_true,
        if_false, if_true, heq, List.length_cons]
      exact Nat.lt_succ_self _
    · rw [List.filter_cons, List.filter_cons]
      cases hpa : p a with
      | false =>
        simpa using ih hnd' hk'
      | true =>
        cases hba : (a == k) with
        | false =>
          simp only [hba, Bool.not_false, Bool.and_true, hpa, if_true, List.length_cons]
          exact Nat.succ_lt_succ (ih hnd' hk')
        | true =>
          exact absurd ((eq_of_beq hba) ▸ hk') ha

theorem guardGet_append_isNone (g : Guard) (k x : Key) (n : String)
    (hmiss : guardGet g k = none) :
    (guardGet (g ++ [(k, n)]) x).isNone = ((guardGet g x).isNone && !(x == k)) := by
  cases hx : x == k with
  | false =>
    have hne : x ≠ k := by simpa using hx
    rw [guardGet_append_ne _ hne]
    simp [hx]
  | true =>
    have hxe : x = k := eq_of_beq hx
    subst hxe
    rw [guardGet_append_self _ hmiss]
    simp [hmiss]

theorem gMissing_le_of_ext {G : TypeGraph} {g g' : Guard} (h : guardExt g g') :
    gMissing G g' ≤ gMissing G g := by
  apply length_filter_mono
  intro x _ hx'
  cases hgx : guardGet g x with
  | none => rfl
  | some v =>
    rw [h x v hgx] at hx'
    simp at hx'

theorem gMissing_append_lt {G : TypeGraph} {g : Guard} {k : Key} (n : String)
    (hmiss : guardGet g k = none) (hk : k ∈ G.nodeKeys) :
    gMissing G (g ++ [(k, n)]) < gMissing G g := by
  unfold gMissing
  have hcong : G.nodeKeys.dedup.filter (fun x => (guardGet (g ++ [(k, n)]) x).isNone) =
      G.nodeKeys.dedup.filter (fun x => (guardGet g x).isNone && !(x == k)) := by
    apply List.filter_congr
    intro x _
    exact guardGet_append_isNone g k x n hmiss
  rw [hcong]
  exact length_filter_strict (List.nodup_dedup _) (List.mem_dedup.mpr hk)
    (by simp [hmiss])

theorem gMissing_le_card (G : TypeGraph) (g : Guard) :
    gMissing G g ≤ G.nodeKeys.dedup.length :=
  List.length_filter_le _ _

/-- The per-field compiler the graph instantiation hands to the wrapper, at a
given remaining fuel. -/
def graphFunc (G : TypeGraph) (fuel : Nat) : DecoratedFunc :=
  { name := "_load_node", argcount := 2,
    run := fun _ tp' ex' st' =>
      graphDepsAux (graphCompile G fuel) (G.depsOf tp') ex'
        { st' with log := st'.log ++ [Key.clsKey tp'.origin] } }

theorem graphCompile_succ (G : TypeGraph) (fuel : Nat) (tp : TypeInfo)
    (extras : Extras) (st : Store) :
    graphCompile G (fuel + 1) tp extras st =
      wrapper_logic (graphFunc G fuel) none false tp extras none st := rfl

/-- Soundness of compiling a dependency list, given soundness of single-node
compilation at the same fuel. -/
theorem graphDepsAux_sound (G : TypeGraph) (fuel : Nat)
    (IH : ∀ (tp : TypeInfo) (extras : Extras) (st : Store),
      tp ∈ G.nodes →
      extras.recursion_guard < st.guards.length →
      GInv G extras.recursion_guard st →
      gMissing G (st.readGuard extras.recursion_guard) < fuel →
      ∃ st' n, graphCompile G fuel tp extras st = .ok st' (mkCallExpr n tp) ∧
        GInv G extras.recursion_guard st' ∧
        st'.guards.length = st.guards.length ∧
        guardExt (st.readGuard extras.recursion_guard)
          (st'.readGuard extras.recursion_guard) ∧
        gMissing G (st'.readGuard extras.recursion_guard) ≤
          gMissing G (st.readGuard extras.recursion_guard) ∧
        guardGet (st'.readGuard extras.recursion_guard) (Key.clsKey tp.origin) =
          some n) :
    ∀ (ds : List TypeInfo) (extras : Extras) (st : Store),
      (∀ d ∈ ds, d ∈ G.nodes) →
      extras.recursion_guard < st.guards.length →
      GInv G extras.recursion_guard st →
      gMissing G (st.readGuard extras.recursion_guard) < fuel →
      ∃ st', graphDepsAux (graphCompile G fuel) ds extras st = .ok st' () ∧
        GInv G extras.recursion_guard st' ∧
        st'.guards.length = st.guards.length ∧
        guardExt (st.readGuard extras.recursion_guard)
          (st'.readGuard extras.recursion_guard) ∧
        gMissing G (st'.readGuard extras.recursion_guard) ≤
          gMissing G (st.readGuard extras.recursion_guard) := by
  intro ds
  induction ds with
  | nil =>
    intro extras st _ _ hinv _
    exact ⟨st, rfl, hinv, rfl, guardExt_refl _, Nat.le_refl _⟩
  | cons d ds ih =>
    intro extras st hds hr hinv hfuel
    obtain ⟨st1, n1, hc, hinv1, hlen1, hext1, hmle1, _⟩ :=
      IH d extras st (hds d (List.mem_cons_self d ds)) hr hinv hfuel
    obtain ⟨st2, hds2, hinv2, hlen2, hext2, hmle2⟩ :=
      ih extras st1 (fun x hx => hds x (List.mem_cons_of_mem d hx))
        (by rw [hlen1]; exact hr) hinv1 (Nat.lt_of_le_of_lt hmle1 hfuel)
    refine ⟨st2, ?_, hinv2, hlen2.trans hlen1, guardExt_trans hext1 hext2,
      hmle2.trans hmle1⟩
    unfold graphDepsAux
    rw [hc]
    exact hds2

/-- Soundness of the graph compilation: with fuel exceeding the number of
unreserved node keys, compiling any node succeeds, preserving the invariant,
extending the guard monotonically, and leaving the node's key reserved under
the returned name. -/
theorem graphCompile_sound (G : TypeGraph)
    (hclosed : ∀ t ∈ G.nodes, ∀ d ∈ G.depsOf t, d ∈ G.nodes) :
    ∀ (fuel : Nat) (tp : TypeInfo) (extras : Extras) (st : Store),
      tp ∈ G.nodes →
      extras.recursion_guard < st.guards.length →
      GInv G extras.recursion_guard st →
      gMissing G (st.readGuard extras.recursion_guard) < fuel →
      ∃ st' n, graphCompile G fuel tp extras st = .ok st' (mkCallExpr n tp) ∧
        GInv G extras.recursion_guard st' ∧
        st'.guards.length = st.guards.length ∧
        guardExt (st.readGuard extras.recursion_guard)
          (st'.readGuard extras.recursion_guard) ∧
        gMissing G (st'.readGuard extras.recursion_guard) ≤
          gMissing G (st.readGuard extras.recursion_guard) ∧
        guardGet (st'.readGuard extras.recursion_guard) (Key.clsKey tp.origin) =
          some n := by
  intro fuel
  induction fuel with
  | zero =>
    intro tp extras st _ _ _ hfuel
    exact absurd hfuel (Nat.not_lt_zero _)
  | succ fuel ihf =>
    intro tp extras st htp hr hinv hfuel
    cases hget : guardGet (st.readGuard extras.recursion_guard) (Key.clsKey tp.origin) with
    | some n =>
      refine ⟨st, n, ?_, hinv, rfl, guardExt_refl _, Nat.le_refl _, hget⟩
      rw [graphCompile_succ]
      exact wrapper_logic_hit _ none false tp extras none st n hget
    | none =>
      obtain ⟨hl1, hl2, hl3, hl4⟩ := hinv
      have hknode : Key.clsKey tp.origin ∈ G.nodeKeys :=
        List.mem_map.mpr ⟨tp, htp, rfl⟩
      have hkNotLog : Key.clsKey tp.origin ∉ st.log := by
        intro hmem
        have := hl2 _ hmem
        rw [hget] at this
        simp at this
      have hmiss : guardGet (st.readGuard extras.recursion_guard) (cacheKey false tp) =
          none := hget
      have hg1 : (missPreBodyStore "_load_node" none false tp extras st).readGuard
          extras.recursion_guard =
          st.readGuard extras.recursion_guard ++
            [(Key.clsKey tp.origin,
              genFnName "_load_node" none false tp extras.cls_name)] :=
        readGuard_missPreBodyStore "_load_node" none false tp extras st hr hmiss
      have hlogPre : (missPreBodyStore "_load_node" none false tp extras st).log =
          st.log := missPreBodyStore_log _ _ _ _ _ _
      have hlenPre : (missPreBodyStore "_load_node" none false tp extras
          st).guards.length = st.guards.length :=
        missPreBodyStore_guards_length _ _ _ _ _ _
      -- the heap the body runs on, after its own log append
      have hgLog : ({ missPreBodyStore "_load_node" none false tp extras st with
          log := (missPreBodyStore "_load_node" none false tp extras st).log ++
            [Key.clsKey tp.origin] } : Store).readGuard extras.recursion_guard =
          st.readGuard extras.recursion_guard ++
            [(Key.clsKey tp.origin,
              genFnName "_load_node" none false tp extras.cls_name)] := hg1
      have hinvLog : GInv G extras.recursion_guard
          { missPreBodyStore "_load_node" none false tp extras st with
            log := (missPreBodyStore "_load_node" none false tp extras st).log ++
              [Key.clsKey tp.origin] } := by
        refine ⟨?_, ?_, ?_, ?_⟩
        · show ((missPreBodyStore "_load_node" none false tp extras st).log ++
            [Key.clsKey tp.origin]).Nodup
          rw [hlogPre, List.nodup_append]
          refine ⟨hl1, List.nodup_singleton _, ?_⟩
          intro a ha hb
          rw [List.mem_singleton] at hb
          subst hb
          exact hkNotLog ha
        · intro k hk
          rw [hgLog]
          have hk' : k ∈ st.log ++ [Key.clsKey tp.origin] := by
            have : (({ missPreBodyStore "_load_node" none false tp extras st with
                log := (missPreBodyStore "_load_node" none false tp extras st).log ++
                  [Key.clsKey tp.origin] } : Store).log) =
                st.log ++ [Key.clsKey tp.origin] := by rw [← hlogPre]
            rw [this] at hk
            exact hk
          rcases List.mem_append.mp hk' with hka | hkb
          · obtain ⟨v, hv⟩ := Option.isSome_iff_exists.mp (hl2 _ hka)
            rw [guardGet_append_of_some _ _ hv]
            rfl
          · rw [List.mem_singleton] at hkb
            subst hkb
            rw [guardGet_append_self _ hget]
            rfl
        · show (guardKeys (({ missPreBodyStore "_load_node" none false tp extras st with
            log := (missPreBodyStore "_load_node" none false tp extras st).log ++
              [Key.clsKey tp.origin] } : Store).readGuard extras.recursion_guard)).Nodup
          rw [hgLog, guardKeys_append, List.nodup_append]
          refine ⟨hl3, List.nodup_singleton _, ?_⟩
          intro a ha hb
          rw [List.mem_singleton] at hb
          subst hb
          exact not_mem_guardKeys_of_none hget ha
        · intro k hk
          rw [hgLog, guardKeys_append] at hk
          rcases List.mem_append.mp hk with hka | hkb
          · exact hl4 _ hka
          · rw [List.mem_singleton] at hkb
            subst hkb
            exact hknode
      have hmLt : gMissing G (({ missPreBodyStore "_load_node" none false tp extras st
          with log := (missPreBodyStore "_load_node" none false tp extras st).log ++
            [Key.clsKey tp.origin] } : Store).readGuard extras.recursion_guard) <
          gMissing G (st.readGuard extras.recursion_guard) := by
        rw [hgLog]
        exact gMissing_append_lt _ hget hknode
      obtain ⟨s, hruns, hinvS, hlenS, hextS, hmleS⟩ :=
        graphDepsAux_sound G fuel ihf (G.depsOf tp)
          (missUpdatedExtras false tp extras st)
          { missPreBodyStore "_load_node" none false tp extras st with
            log := (missPreBodyStore "_load_node" none false tp extras st).log ++
              [Key.clsKey tp.origin] }
          (hclosed tp htp)
          (by show extras.recursion_guard <
                (missPreBodyStore "_load_node" none false tp extras st).guards.length
              rw [hlenPre]; exact hr)
          hinvLog
          (Nat.lt_of_lt_of_le hmLt (Nat.lt_succ_iff.mp hfuel))
      have hbodyEq : (graphFunc G fuel).run none tp (missUpdatedExtras false tp extras st)
          (missPreBodyStore (graphFunc G fuel).name none false tp extras st) =
          .ok s () := hruns
      have hentryLog : guardGet (({ missPreBodyStore "_load_node" none false tp extras st
          with log := (missPreBodyStore "_load_node" none false tp extras st).log ++
            [Key.clsKey tp.origin] } : Store).readGuard extras.recursion_guard)
          (Key.clsKey tp.origin) =
          some (genFnName "_load_node" none false tp extras.cls_name) := by
        rw [hgLog]
        exact guardGet_append_self _ hget
      have hentryS : guardGet (s.readGuard extras.recursion_guard)
          (Key.clsKey tp.origin) =
          some (genFnName "_load_node" none false tp extras.cls_name) :=
        hextS _ _ hentryLog
      refine ⟨(s.modifyBuilder (missNewRef st) FunctionBuilder.sealFn).modifyBuilder
          extras.fn_gen
          (fun b => b.merge ((s.modifyBuilder (missNewRef st)
            FunctionBuilder.sealFn).readBuilder (missNewRef st))),
        genFnName "_load_node" none false tp extras.cls_name, ?_, ?_, ?_, ?_, ?_, ?_⟩
      · rw [graphCompile_succ, wrapper_logic_miss _ _ _ _ _ _ _ hmiss,
          wrapper_miss_eq_plain (graphFunc G fuel) none false tp extras none st rfl]
        unfold missResultPlain
        rw [hbodyEq]
        rfl
      · exact hinvS
      · show s.guards.length = st.guards.length
        exact hlenS.trans hlenPre
      · have hext0 : guardExt (st.readGuard extras.recursion_guard)
            (({ missPreBodyStore "_load_node" none false tp extras st with
              log := (missPreBodyStore "_load_node" none false tp extras st).log ++
                [Key.clsKey tp.origin] } : Store).readGuard extras.recursion_guard) := by
          rw [hgLog]
          exact guardExt_append _ _ _
        exact guardExt_trans hext0 hextS
      · show gMissing G (s.readGuard extras.recursion_guard) ≤
          gMissing G (st.readGuard extras.recursion_guard)
        exact Nat.le_of_lt (Nat.lt_of_le_of_lt hmleS hmLt)
      · exact hentryS

/-- C3: over any finite type-dependency graph — self-references and mutual
cycles included — a top-level compilation through the wrapper terminates with
fuel one more than the number of distinct cache keys, so the wrapper's
recursion depth is bounded by the number of distinct types.  The body logs its
own invocations: the duplicate-free log shows the per-field compiler body is
entered at most once per distinct cache key, each entered key is reserved in
the guard, the guard binds each key exactly once (one procedure name per
distinct type), and the compiled node's key ends up reserved under the
returned name. -/
theorem C3_termination_one_compile_per_type (G : TypeGraph) (fuel : Nat)
    (tp : TypeInfo) (extras : Extras) (st : Store)
    (hclosed : ∀ t ∈ G.nodes, ∀ d ∈ G.depsOf t, d ∈ G.nodes)
    (htp : tp ∈ G.nodes)
    (hr : extras.recursion_guard < st.guards.length)
    (hg : st.readGuard extras.recursion_guard = [])
    (hlog : st.log = [])
    (hfuel : G.nodeKeys.dedup.length < fuel) :
    ∃ st' n, graphCompile G fuel tp extras st = .ok st' (mkCallExpr n tp) ∧
      st'.log.Nodup ∧
      (∀ k ∈ st'.log, (guardGet (st'.readGuard extras.recursion_guard) k).isSome) ∧
      (guardKeys (st'.readGuard extras.recursion_guard)).Nodup ∧
      (∀ k ∈ guardKeys (st'.readGuard extras.recursion_guard), k ∈ G.nodeKeys) ∧
      guardGet (st'.readGuard extras.recursion_guard) (Key.clsKey tp.origin) =
        some n := by
  have hinv : GInv G extras.recursion_guard st := by
    refine ⟨?_, ?_, ?_, ?_⟩ <;> simp [hg, hlog, guardKeys]
  have hm : gMissing G (st.readGuard extras.recursion_guard) < fuel :=
    Nat.lt_of_le_of_lt (gMissing_le_card G _) hfuel
  obtain ⟨st', n, heq, hinv', _, _, _, hentry⟩ :=
    graphCompile_sound G hclosed fuel tp extras st htp hr hinv hm
  obtain ⟨h1, h2, h3, h4⟩ := hinv'
  exact ⟨st', n, heq, h1, h2, h3, h4, hentry⟩

/-! ## Concrete inputs for the witnesses -/

/-- A per-field compiler body that emits nothing: returns normally and leaves
the heap unchanged. -/
def inertRun : Option ClsCtx → TypeInfo → Extras → Store → PyResult Unit :=
  fun _ _ _ s => .ok s ()

/-- A per-field compiler body that raises immediately. -/
def raisingRun : Option ClsCtx → TypeInfo → Extras → Store → PyResult Unit :=
  fun _ _ _ s => .exn s

def witTp : TypeInfo := ⟨0, [], "field", 0, "v1"⟩

def witFunc : DecoratedFunc := ⟨"_load_x", 2, inertRun⟩

def witFunc3 : DecoratedFunc := ⟨"_load_x", 3, inertRun⟩

def witFuncRaise : DecoratedFunc := ⟨"_load_x", 2, raisingRun⟩

def witExtras : Extras := ⟨0, "R", 0, []⟩

/-- A fresh top-level heap: the shared guard (empty) at reference 0 and the
top-level builder (empty) at reference 0. -/
def witStore0 : Store := ⟨[[]], [FunctionBuilder.empty], []⟩

/-- A heap whose guard already carries an entry for `witTp`'s cache key. -/
def witStoreHit : Store :=
  ⟨[[(Key.clsKey 0, "_load_R_x_field")]], [FunctionBuilder.empty], []⟩

/-- The heap produced by a full miss compilation of `witTp` with the inert
body: entry reserved, nested builder sealed and merged into the caller's. -/
def witSt1 : Store :=
  ⟨[[(Key.clsKey 0, "_load_R_x_field")]],
   [⟨[("_load_R_x_field", ⟨["v1"], [("cls", Key.clsKey 0)], []⟩)], none⟩,
    ⟨[("_load_R_x_field", ⟨["v1"], [("cls", Key.clsKey 0)], []⟩)], none⟩],
   []⟩

def witTpA : TypeInfo := ⟨0, [], "a", 0, "va"⟩

def witTpB : TypeInfo := ⟨1, [], "b", 0, "vb"⟩

/-- A mutually recursive two-node type graph: A depends on B and B on A. -/
def witGraph : TypeGraph :=
  ⟨[witTpA, witTpB], fun t => if t.origin == 0 then [witTpB] else [witTpA]⟩

theorem witFunc_guard_monotone (r : Ref) : GuardMonotone r witFunc := by
  intro c t e s s' u h k v hv
  cases h
  exact hv

/-! ## Witnesses -/

theorem C1_witness :
    ∃ n, guardGet (witSt1.readGuard witExtras.recursion_guard) (cacheKey false witTp) =
        some n ∧
      "_load_R_x_field(v1)" = mkCallExpr n witTp ∧
      ∀ (func2 : DecoratedFunc) (fnN2 : Option String) (isG2 : Bool) (tp2 : TypeInfo)
        (extras2 : Extras) (c2 : Option ClsCtx),
        extras2.recursion_guard = witExtras.recursion_guard →
        cacheKey isG2 tp2 = cacheKey false witTp →
        wrapper_logic func2 fnN2 isG2 tp2 extras2 c2 witSt1 =
          .ok witSt1 (mkCallExpr n tp2) :=
  C1_reserved_call_and_dedup witFunc none false witTp witExtras none witStore0 witSt1
    "_load_R_x_field(v1)" (by decide) (witFunc_guard_monotone _) (by decide)

theorem C2_witness :
    guardGet ((missPreBodyStore witFunc.name none false witTp witExtras
        witStore0).readGuard witExtras.recursion_guard) (cacheKey false witTp) =
      some (genFnName witFunc.name none false witTp witExtras.cls_name) ∧
    (∀ k v, guardGet (witStore0.readGuard witExtras.recursion_guard) k = some v →
      guardGet ((missPreBodyStore witFunc.name none false witTp witExtras
        witStore0).readGuard witExtras.recursion_guard) k = some v) ∧
    (∀ g : DecoratedFunc, g.name = witFunc.name →
      (∀ c t e s,
        guardGet (s.readGuard witExtras.recursion_guard) (cacheKey false witTp) =
          some (genFnName witFunc.name none false witTp witExtras.cls_name) →
        g.run c t e s = witFunc.run c t e s) →
      wrapper_logic g none false witTp witExtras none witStore0 =
        wrapper_logic witFunc none false witTp witExtras none witStore0) ∧
    (∀ (g : DecoratedFunc) (fnN' : Option String) (isG' : Bool) (tp' : TypeInfo)
        (extras' : Extras) (c' : Option ClsCtx) (stMid : Store),
      cacheKey isG' tp' = cacheKey false witTp →
      extras'.recursion_guard = witExtras.recursion_guard →
      guardGet (stMid.readGuard witExtras.recursion_guard) (cacheKey false witTp) =
        some (genFnName witFunc.name none false witTp witExtras.cls_name) →
      wrapper_logic g fnN' isG' tp' extras' c' stMid =
        .ok stMid (mkCallExpr (genFnName witFunc.name none false witTp
          witExtras.cls_name) tp')) :=
  C2_reserve_before_body witFunc none false witTp witExtras none witStore0
    (by decide) (by decide)

theorem C3_witness :
    ∃ st' n, graphCompile witGraph 3 witTpA witExtras witStore0 =
        .ok st' (mkCallExpr n witTpA) ∧
      st'.log.Nodup ∧
      (∀ k ∈ st'.log, (guardGet (st'.readGuard witExtras.recursion_guard) k).isSome) ∧
      (guardKeys (st'.readGuard witExtras.recursion_guard)).Nodup ∧
      (∀ k ∈ guardKeys (st'.readGuard witExtras.recursion_guard),
        k ∈ witGraph.nodeKeys) ∧
      guardGet (st'.readGuard witExtras.recursion_guard) (Key.clsKey witTpA.origin) =
        some n :=
  C3_termination_one_compile_per_type witGraph 3 witTpA witExtras witStore0
    (by decide) (by decide) (by decide) (by decide) (by decide) (by decide)

theorem C4_witness :
    genFnName "_load_x" none true witTp "R" =
      "_load_" ++ "R" ++ "_" ++ roleToken "_load_x" ++ "_" ++ toString witTp.field_i ∧
    genFnName "_load_x" none false witTp "R" =
      "_load_" ++ "R" ++ "_" ++ roleToken "_load_x" ++ "_" ++ witTp.name ∧
    genFnName "_load_x" none true witTp "R" ≠ genFnName "_load_x" none false witTp "R" :=
  C4_naming_templates "_load_x" witTp "R" witTp witTp (by decide)

theorem C5_amended_witness :
    genFnName "_load_to_dataclass" none false witTp "R" ≠
      genFnName "_dump_from_dataclass" none false witTp "R" :=
  C5_role_token_distinctness "_load_to_dataclass" "_dump_from_dataclass" false witTp "R"
    (by decide)

theorem C6_witness :
    (missUpdatedExtras false witTp witExtras witStore0).recursion_guard =
      witExtras.recursion_guard ∧
    (missUpdatedExtras false witTp witExtras witStore0).cls_name = witExtras.cls_name ∧
    (missUpdatedExtras false witTp witExtras witStore0).locals =
      [("cls", cacheKey false witTp)] ∧
    (missUpdatedExtras false witTp witExtras witStore0).fn_gen ≠ witExtras.fn_gen ∧
    (missAllocStore witFunc.name none false witTp witExtras witStore0).readBuilder
      (missUpdatedExtras false witTp witExtras witStore0).fn_gen =
        FunctionBuilder.empty ∧
    (∀ s u, witFunc.run none witTp (missUpdatedExtras false witTp witExtras witStore0)
        (missPreBodyStore witFunc.name none false witTp witExtras witStore0) = .ok s u →
      wrapper_logic witFunc none false witTp witExtras none witStore0 =
        .ok ((s.modifyBuilder (missNewRef witStore0) FunctionBuilder.sealFn).modifyBuilder
              witExtras.fn_gen
              (fun b => b.merge ((s.modifyBuilder (missNewRef witStore0)
                FunctionBuilder.sealFn).readBuilder (missNewRef witStore0))))
          (mkCallExpr (genFnName witFunc.name none false witTp witExtras.cls_name)
            witTp)) :=
  C6_nested_context_isolation witFunc none false witTp witExtras none witStore0
    (by decide) (by decide) rfl

theorem C7_witness :
    isClassMethodShape (setup_recursive_safe_function witFunc3 none false) =
      (witFunc3.argcount == 3) ∧
    wrapper_logic witFunc none false witTp witExtras none witStore0 =
      wrapper_logic witFunc3 none false witTp witExtras none witStore0 := by
  have h := C7_classification_total_static witFunc3 none false
  exact ⟨h.1, h.2 witFunc rfl rfl witTp witExtras none witStore0⟩

theorem C8_witness :
    wrapper_logic witFuncRaise none false witTp witExtras none witStore0 =
      .exn ((missPreBodyStore witFuncRaise.name none false witTp witExtras
        witStore0).modifyBuilder (missNewRef witStore0) FunctionBuilder.sealFn) ∧
    ((missPreBodyStore witFuncRaise.name none false witTp witExtras
        witStore0).modifyBuilder (missNewRef witStore0)
        FunctionBuilder.sealFn).readBuilder witExtras.fn_gen =
      (missPreBodyStore witFuncRaise.name none false witTp witExtras
        witStore0).readBuilder witExtras.fn_gen ∧
    ((missPreBodyStore witFuncRaise.name none false witTp witExtras
        witStore0).modifyBuilder (missNewRef witStore0)
        FunctionBuilder.sealFn).readBuilder witExtras.fn_gen =
      witStore0.readBuilder witExtras.fn_gen := by
  have h := C8_exception_aborts_merge witFuncRaise none false witTp witExtras none
    witStore0 (by decide) (by decide) rfl
    (missPreBodyStore witFuncRaise.name none false witTp witExtras witStore0) rfl
  exact ⟨h.1, h.2.1, h.2.2 rfl⟩

theorem C9_witness :
    wrapper_logic witFunc none false witTp witExtras none witStoreHit =
      .ok witStoreHit (mkCallExpr "_load_R_x_field" witTp) :=
  C9_cache_hit_read_only witFunc none false witTp witExtras none witStoreHit
    "_load_R_x_field" (by decide)

theorem C10_witness :
    setup_recursive_safe_function witFunc3 none false =
      .classMethod (fun c tp extras st => wrapper_logic witFunc3 none false tp extras c st) ∧
    setup_recursive_safe_function witFunc none false =
      .plain (fun tp extras st => wrapper_logic witFunc none false tp extras none st) ∧
    wrapper_logic witFunc none false witTp witExtras none witStore0 =
      missResultPlain witFunc none false witTp witExtras none witStore0 := by
  have h3 := C10_shape_dispatch witFunc3 none false
  have h2 := C10_shape_dispatch witFunc none false
  exact ⟨h3.1 rfl, h2.2.1 (by decide), h2.2.2 witTp witExtras none witStore0 rfl (by decide)⟩

end DW
